import Mathlib

/-!
Shallow embedding of the `ptsd` command runner (src/main.rs).

The program collects a command list (positional arguments, optionally
extended by the lines of a command file), then for each command, in order:
acquires a semaphore permit, spawns the command through a shell with its
stdout/stderr redirected to per-task sink files, and pushes a join handle.
Spawn failures are recorded into `failed_tasks` immediately.  A second loop
awaits the handles in order, logging join errors and recording non-success
exits into `failed_tasks`.  The exit code is 1 when `failed_tasks` is
non-empty, 0 otherwise.

The per-task environment behaviour (can the sink files be created? does the
shell spawn? how does the process exit? does the join succeed?) is an input
oracle to the model; the control flow of `main` is translated directly.
-/

namespace Ptsd

/-- Result of awaiting a task's join handle (src/main.rs:212-223):
either the join itself fails (`JoinError`, e.g. the supervising tokio task
panicked because `proc.wait().await.unwrap()` failed at line 195), or the
process exited with the given success flag (`res.success()`, line 206). -/
inductive JoinResult where
  | joinErr
  | exited (success : Bool)
deriving DecidableEq

/-- Environment outcome for one task in the scheduling loop
(src/main.rs:181-208).  `sinkPanic`: `File::create(..).unwrap()` inside
`spawn_task_process` (lines 98/102) fails, so the whole process panics.
`spawnErr`: `spawn()` returns `Err` (line 184), handled locally.
`spawned j`: a child process is obtained and its handle is later awaited
with join result `j`. -/
inductive TaskOutcome where
  | sinkPanic
  | spawnErr
  | spawned (join : JoinResult)
deriving DecidableEq

/-- State threaded through the scheduling loop of `main`
(src/main.rs:163-209): number of `spawn_task_process` calls made so far
(each starts by creating the two sink files), the `failed_tasks` vector,
and the `tasks` vector of `(ordinal, join handle)` pairs. -/
structure LoopState where
  attempts : Nat
  failed : List Nat
  tasks : List (Nat × JoinResult)
deriving DecidableEq

/-- The scheduling loop of `main` (src/main.rs:165-209), iterating the
commands with their ordinals.  A `sinkPanic` outcome aborts the whole loop
(the `unwrap` panic propagates out of `main`), returned as `.error` with
the state at the point of the panic.  A `spawnErr` outcome pushes the
ordinal onto `failed_tasks` and continues (lines 184-191; the just-acquired
permit is dropped by `continue`).  A successful spawn pushes the pair onto
`tasks` (line 208). -/
def scheduleLoop : Nat → LoopState → List TaskOutcome → Except LoopState LoopState
  | _, st, [] => .ok st
  | i, st, o :: rest =>
    match o with
    | .sinkPanic => .error { st with attempts := st.attempts + 1 }
    | .spawnErr =>
      scheduleLoop (i + 1)
        { st with attempts := st.attempts + 1, failed := st.failed ++ [i] } rest
    | .spawned j =>
      scheduleLoop (i + 1)
        { st with attempts := st.attempts + 1, tasks := st.tasks ++ [(i, j)] } rest

/-- The awaiting loop of `main` (src/main.rs:212-223): handles are awaited
in push order; a join error is only logged (`eprintln!`, line 216; first
component of the result is `failed_tasks` additions, second the logged
ordinals), a non-success exit pushes the ordinal onto `failed_tasks`
(line 219), success records nothing. -/
def awaitLoop : List (Nat × JoinResult) → List Nat × List Nat
  | [] => ([], [])
  | (i, j) :: rest =>
    let p := awaitLoop rest
    match j with
    | .joinErr => (p.1, i :: p.2)
    | .exited true => p
    | .exited false => (i :: p.1, p.2)

/-- Splitting a character list into lines the way Rust's `str::lines` does
(used at src/main.rs:134): segments are terminated by `\n` or `\r\n` (the
`\r` of a `\r\n` pair is stripped); a final segment without a terminator is
kept only if non-empty; a lone `\r` not followed by `\n` stays in its
line. -/
def linesCore : List Char → List (List Char)
  | [] => []
  | '\r' :: '\n' :: cs => [] :: linesCore cs
  | '\n' :: cs => [] :: linesCore cs
  | c :: cs =>
    match linesCore cs with
    | [] => [[c]]
    | l :: ls => (c :: l) :: ls

/-- Rust's `extra_commands.lines()` (src/main.rs:134) on a string. -/
def rustLines (s : String) : List String :=
  (linesCore s.data).map String.mk

/-- How the command file argument resolved for a run: absent, read
successfully with the given content, or failed to read
(src/main.rs:125-135). -/
inductive FileRead where
  | noFile
  | content (s : String)
  | readError
deriving DecidableEq

/-- The final command list of `main` (src/main.rs:125-135): positional
commands, extended with the lines of the command file when one was
supplied; `none` when the command file could not be read (the program
prints an error and exits 1 before building any task). -/
def commandsOf (positional : List String) : FileRead → Option (List String)
  | .noFile => some positional
  | .content s => some (positional ++ rustLines s)
  | .readError => none

/-- Observable result of a run of `main`: the process exit code, the
number of `spawn_task_process` invocations (each of which begins by
creating the two sink files), the final `failed_tasks` vector as printed in
the report (src/main.rs:226), the ordinals whose join error was logged
(line 216), and whether the command-file read error was reported
(line 128). -/
structure MainRes where
  exitCode : Nat
  spawnAttempts : Nat
  failed : List Nat
  joinLogged : List Nat
  fileErrorReported : Bool
deriving DecidableEq

/-- The whole of `main` (src/main.rs:114-233) as a function of the
positional commands, the command-file read result and the per-task
environment oracle.  An unreadable command file exits 1 immediately
(lines 127-130); an empty command list returns (exit 0, lines 138-140); a
sink-creation panic aborts the process (Rust's default panic exit code is
101) and the failure report is never printed; otherwise the exit code is 1
iff `failed_tasks` is non-empty (lines 225-232). -/
def mainRun (positional : List String) (file : FileRead) (ora : Nat → TaskOutcome) :
    MainRes :=
  match commandsOf positional file with
  | none => ⟨1, 0, [], [], true⟩
  | some cmds =>
    if cmds.length = 0 then ⟨0, 0, [], [], false⟩
    else
      let outcomes := (List.range cmds.length).map ora
      match scheduleLoop 0 ⟨0, [], []⟩ outcomes with
      | .error st => ⟨101, st.attempts, [], [], false⟩
      | .ok st =>
        let p := awaitLoop st.tasks
        let failed := st.failed ++ p.1
        ⟨if failed.length > 0 then 1 else 0, st.attempts, failed, p.2, false⟩

/-- The zero-padded filename width computed at src/main.rs:150:
`(commands.len() as f32).log10() as usize + 1`, with the `f32` logarithm
read as the exact `Nat.log 10`.  This reading is NOT faithful for all `n`:
under a correctly rounded `log10f` (e.g. glibc's) and the exact
`usize → f32` conversion (`n < 2^24`), the nearest `f32` to `log10 n`
first reaches the next integer at `n = 9999995..9999999` (`log10 n` is
within half an ulp, about `2.4e-7`, below `7.0`), where the program pads
to width 8 while `Nat.log` gives 7.  It IS faithful for every
`n ≤ 9999994` (for `n` below `10^7` and outside that band, `log10 n` sits
at least half an ulp below the next integer, so truncation agrees with
`floor (log10 n)`).  Every theorem about `width` below — and about the
derived `taskName` / sink-name definitions — is therefore confined to
`n ≤ 1000000`, well inside the faithful range. -/
def width (n : Nat) : Nat := Nat.log 10 n + 1

/-- Decimal digit count by repeated integer division, with explicit fuel so
that it is structurally recursive (and hence kernel-evaluable); `fuel = n`
always suffices. -/
def digitCountAux : Nat → Nat → Nat
  | 0, _ => 1
  | fuel + 1, n => if n < 10 then 1 else digitCountAux fuel (n / 10) + 1

/-- Decimal digit count of `n` (count of `0` is 1). -/
def digitCount (n : Nat) : Nat := digitCountAux n n

/-- Rust's `format!("{i:0width$}")` (src/main.rs:182): left-pad the decimal
rendering of `i` with zeros up to `w` characters (never truncating). -/
def zeroPad (w i : Nat) : String :=
  let s := toString i
  String.mk (List.replicate (w - s.length) '0' ++ s.data)

/-- The task name for ordinal `i` of a run with `total` commands, used to
derive the sink file names (src/main.rs:97/101/182). -/
def taskName (total i : Nat) : String := zeroPad (width total) i

/-- Stdout sink filename for a task (src/main.rs:97). -/
def sinkStdoutName (total i : Nat) : String := taskName total i ++ ".stdout"

/-- Stderr sink filename for a task (src/main.rs:101). -/
def sinkStderrName (total i : Nat) : String := taskName total i ++ ".stderr"

/-- Ordinals (starting at `i`) of the outcomes selected by `sel`. -/
def ordsWhere (sel : TaskOutcome → Bool) : Nat → List TaskOutcome → List Nat
  | _, [] => []
  | i, o :: rest =>
    if sel o then i :: ordsWhere sel (i + 1) rest
    else ordsWhere sel (i + 1) rest

/-- Selector: the shell process could not be spawned. -/
def isSpawnErr : TaskOutcome → Bool
  | .spawnErr => true
  | _ => false

/-- Selector: the process spawned and exited without success. -/
def isExitFailure : TaskOutcome → Bool
  | .spawned (.exited false) => true
  | _ => false

/-- Selector: the process spawned but its join handle errored. -/
def isJoinError : TaskOutcome → Bool
  | .spawned .joinErr => true
  | _ => false

/-- The `(ordinal, join result)` pairs pushed onto `tasks` by the
scheduling loop, starting at ordinal `i`. -/
def spawnedFrom : Nat → List TaskOutcome → List (Nat × JoinResult)
  | _, [] => []
  | i, .sinkPanic :: rest => spawnedFrom (i + 1) rest
  | i, .spawnErr :: rest => spawnedFrom (i + 1) rest
  | i, .spawned j :: rest => (i, j) :: spawnedFrom (i + 1) rest

/-!
Concurrency-gate model.  The scheduling loop acquires one semaphore permit
per task before spawning (src/main.rs:167); on spawn failure the permit is
dropped by `continue` (line 190); on success the permit moves into the
spawned tokio task and is dropped only after `proc.wait().await` resolves
(lines 195-204).  We model this as a labelled transition system over the
per-task lifecycle and prove the semaphore invariant over every reachable
interleaving (a superset of the interleavings the sequential scheduling
loop can actually produce).
-/

/-- Lifecycle state of one task with respect to the concurrency gate. -/
inductive TaskState where
  | queued
  | permitHeld
  | running
  | exited
  | done
  | spawnFailed
deriving DecidableEq

/-- Gate state: permits currently available in the semaphore, plus the
lifecycle state of every task. -/
structure SchedState where
  permits : Nat
  tasks : List TaskState
deriving DecidableEq

/-- A task in these states holds a semaphore permit: from the successful
`acquire_owned` (src/main.rs:167) until the `drop(permit)` after the wait
resolves (line 204), or until `continue` on the spawn-error path
(line 190). -/
def holdsPermit : TaskState → Bool
  | .permitHeld => true
  | .running => true
  | .exited => true
  | _ => false

/-- A task in this state has a spawned process that has not yet exited. -/
def isRunning : TaskState → Bool
  | .running => true
  | _ => false

/-- One step of the run.  `acquire` needs an available permit
(src/main.rs:167); `spawnOk`/`spawnFail` are the two arms of the match at
lines 182-192, `spawnFail` returning the permit at once (the `continue`
drops it); `procExit` is the process terminating; `release` is
`drop(permit)` after `wait` resolved (line 204). -/
inductive Step : SchedState → SchedState → Prop
  | acquire (s : SchedState) (i : Nat) (h : s.tasks[i]? = some .queued)
      (hp : 0 < s.permits) :
      Step s ⟨s.permits - 1, s.tasks.set i .permitHeld⟩
  | spawnOk (s : SchedState) (i : Nat) (h : s.tasks[i]? = some .permitHeld) :
      Step s ⟨s.permits, s.tasks.set i .running⟩
  | spawnFail (s : SchedState) (i : Nat) (h : s.tasks[i]? = some .permitHeld) :
      Step s ⟨s.permits + 1, s.tasks.set i .spawnFailed⟩
  | procExit (s : SchedState) (i : Nat) (h : s.tasks[i]? = some .running) :
      Step s ⟨s.permits, s.tasks.set i .exited⟩
  | release (s : SchedState) (i : Nat) (h : s.tasks[i]? = some .exited) :
      Step s ⟨s.permits + 1, s.tasks.set i .done⟩

/-- States reachable in a run of `n` tasks against a semaphore initialised
with `maxP` permits (src/main.rs:161). -/
inductive Reachable (maxP n : Nat) : SchedState → Prop
  | init : Reachable maxP n ⟨maxP, List.replicate n .queued⟩
  | step {s s' : SchedState} : Reachable maxP n s → Step s s' → Reachable maxP n s'

/-- Setting an element shifts `countP` by the difference of the old and
new elements' predicate values. -/
theorem countP_set (p : TaskState → Bool) (l : List TaskState) (i : Nat)
    (x a : TaskState) (h : l[i]? = some x) :
    (l.set i a).countP p + (if p x then 1 else 0) =
      l.countP p + (if p a then 1 else 0) := by
  induction l generalizing i with
  | nil => simp at h
  | cons hd tl ih =>
    cases i with
    | zero =>
      simp only [List.getElem?_cons_zero, Option.some.injEq] at h
      subst h
      simp [List.countP_cons]
      omega
    | succ m =>
      simp only [List.getElem?_cons_succ] at h
      have := ih m h
      simp [List.set, List.countP_cons]
      omega

/-- One step preserves the semaphore accounting: available permits plus
held permits is unchanged. -/
theorem step_invariant {s s' : SchedState} (hs : Step s s') :
    s'.permits + s'.tasks.countP holdsPermit =
      s.permits + s.tasks.countP holdsPermit := by
  cases hs with
  | acquire i h hp =>
    have hc := countP_set holdsPermit s.tasks i _ .permitHeld h
    simp [holdsPermit] at hc
    simp only []
    omega
  | spawnOk i h =>
    have hc := countP_set holdsPermit s.tasks i _ .running h
    simp [holdsPermit] at hc
    simp only []
    omega
  | spawnFail i h =>
    have hc := countP_set holdsPermit s.tasks i _ .spawnFailed h
    simp [holdsPermit] at hc
    simp only []
    omega
  | procExit i h =>
    have hc := countP_set holdsPermit s.tasks i _ .exited h
    simp [holdsPermit] at hc
    simp only []
    omega
  | release i h =>
    have hc := countP_set holdsPermit s.tasks i _ .done h
    simp [holdsPermit] at hc
    simp only []
    omega

/-- Semaphore accounting invariant: available permits plus held permits is
always the initial permit count. -/
theorem reachable_invariant (maxP n : Nat) (s : SchedState)
    (h : Reachable maxP n s) :
    s.permits + s.tasks.countP holdsPermit = maxP := by
  induction h with
  | init =>
    have : ∀ m : Nat, (List.replicate m TaskState.queued).countP holdsPermit = 0 := by
      intro m
      induction m with
      | zero => simp
      | succ k ihk => simp [List.replicate, List.countP_cons, holdsPermit, ihk]
    simp [this]
  | step _ hs ih =>
    rw [step_invariant hs, ih]

/-- Characterization of a scheduling loop that finished without a panic:
the attempt counter grows by the task count, the spawn failures are
appended in ordinal order, and the task handles are appended in ordinal
order. -/
theorem scheduleLoop_ok (outs : List TaskOutcome) :
    ∀ (i : Nat) (st st' : LoopState), scheduleLoop i st outs = .ok st' →
      st'.attempts = st.attempts + outs.length ∧
      st'.failed = st.failed ++ ordsWhere isSpawnErr i outs ∧
      st'.tasks = st.tasks ++ spawnedFrom i outs := by
  induction outs with
  | nil =>
    intro i st st' h
    simp only [scheduleLoop, Except.ok.injEq] at h
    subst h
    simp [ordsWhere, spawnedFrom]
  | cons o rest ih =>
    intro i st st' h
    cases o with
    | sinkPanic => simp [scheduleLoop] at h
    | spawnErr =>
      simp only [scheduleLoop] at h
      obtain ⟨h1, h2, h3⟩ := ih (i + 1) _ st' h
      refine ⟨by simp at h1 ⊢; omega, ?_, ?_⟩
      · simp only [h2, ordsWhere, isSpawnErr, if_pos]
        simp
      · simpa [spawnedFrom] using h3
    | spawned j =>
      simp only [scheduleLoop] at h
      obtain ⟨h1, h2, h3⟩ := ih (i + 1) _ st' h
      refine ⟨by simp at h1 ⊢; omega, ?_, ?_⟩
      · simpa [ordsWhere, isSpawnErr] using h2
      · simp only [h3, spawnedFrom]
        simp

/-- When no outcome is a sink-creation panic, the scheduling loop
finishes (the Rust loop only aborts through the `unwrap` panic). -/
theorem scheduleLoop_no_panic (outs : List TaskOutcome)
    (hnp : ∀ o ∈ outs, o ≠ .sinkPanic) :
    ∀ (i : Nat) (st : LoopState), ∃ st', scheduleLoop i st outs = .ok st' := by
  induction outs with
  | nil => intro i st; exact ⟨st, rfl⟩
  | cons o rest ih =>
    intro i st
    have hrest : ∀ o ∈ rest, o ≠ .sinkPanic := fun o ho => hnp o (List.mem_cons_of_mem _ ho)
    cases o with
    | sinkPanic => exact absurd rfl (hnp _ (List.mem_cons_self _ _))
    | spawnErr =>
      obtain ⟨st', h⟩ := ih hrest (i + 1)
        { st with attempts := st.attempts + 1, failed := st.failed ++ [i] }
      exact ⟨st', h⟩
    | spawned j =>
      obtain ⟨st', h⟩ := ih hrest (i + 1)
        { st with attempts := st.attempts + 1, tasks := st.tasks ++ [(i, j)] }
      exact ⟨st', h⟩

/-- Awaiting the handles pushed by the scheduling loop yields exactly the
non-success-exit ordinals as failures and the join-error ordinals as
logged, each in ordinal order. -/
theorem awaitLoop_spawnedFrom (outs : List TaskOutcome) :
    ∀ i : Nat, awaitLoop (spawnedFrom i outs) =
      (ordsWhere isExitFailure i outs, ordsWhere isJoinError i outs) := by
  induction outs with
  | nil => intro i; simp [spawnedFrom, awaitLoop, ordsWhere]
  | cons o rest ih =>
    intro i
    cases o with
    | sinkPanic => simp [spawnedFrom, ordsWhere, isExitFailure, isJoinError, ih]
    | spawnErr => simp [spawnedFrom, ordsWhere, isExitFailure, isJoinError, ih]
    | spawned j =>
      cases j with
      | joinErr =>
        simp [spawnedFrom, awaitLoop, ordsWhere, isExitFailure, isJoinError, ih]
      | exited b =>
        cases b <;>
          simp [spawnedFrom, awaitLoop, ordsWhere, isExitFailure, isJoinError, ih]

/-- Membership in `ordsWhere`: exactly the ordinals (offset by the start
index) whose outcome satisfies the selector. -/
theorem mem_ordsWhere (sel : TaskOutcome → Bool) (outs : List TaskOutcome) :
    ∀ i j : Nat, j ∈ ordsWhere sel i outs ↔
      ∃ k, j = i + k ∧ ∃ o, outs[k]? = some o ∧ sel o = true := by
  induction outs with
  | nil => intro i j; simp [ordsWhere]
  | cons o rest ih =>
    intro i j
    by_cases hsel : sel o
    · simp only [ordsWhere, if_pos hsel, List.mem_cons]
      constructor
      · rintro (rfl | hmem)
        · exact ⟨0, by omega, o, by simp, hsel⟩
        · obtain ⟨k, rfl, o', hk, ho'⟩ := (ih (i + 1) _).1 hmem
          exact ⟨k + 1, by omega, o', by simpa using hk, ho'⟩
      · rintro ⟨k, rfl, o', hk, ho'⟩
        cases k with
        | zero => left; omega
        | succ m =>
          right
          refine (ih (i + 1) _).2 ⟨m, by omega, o', by simpa using hk, ho'⟩
    · simp only [ordsWhere, if_neg hsel]
      constructor
      · intro hmem
        obtain ⟨k, rfl, o', hk, ho'⟩ := (ih (i + 1) _).1 hmem
        exact ⟨k + 1, by omega, o', by simpa using hk, ho'⟩
      · rintro ⟨k, rfl, o', hk, ho'⟩
        cases k with
        | zero =>
          simp at hk
          subst hk
          exact absurd ho' (by simpa using hsel)
        | succ m =>
          refine (ih (i + 1) _).2 ⟨m, by omega, o', by simpa using hk, ho'⟩

/-- The ordinal lists extracted by `ordsWhere` are strictly increasing. -/
theorem ordsWhere_sorted (sel : TaskOutcome → Bool) (outs : List TaskOutcome) :
    ∀ i : Nat, List.Sorted (· < ·) (ordsWhere sel i outs) := by
  induction outs with
  | nil => intro i; simp [ordsWhere]
  | cons o rest ih =>
    intro i
    by_cases hsel : sel o
    · simp only [ordsWhere, if_pos hsel, List.sorted_cons]
      refine ⟨?_, ih (i + 1)⟩
      intro b hb
      obtain ⟨k, rfl, -⟩ := (mem_ordsWhere sel rest (i + 1) b).1 hb
      omega
    · simpa [ordsWhere, if_neg hsel] using ih (i + 1)

/-- Full characterization of a run whose command file was readable and
whose sink files could all be created: every command is attempted, the
failure report is the spawn-failure ordinals followed by the
non-success-exit ordinals, the join errors are logged, and the exit code is
1 exactly when the report is non-empty. -/
theorem mainRun_spec (pos : List String) (file : FileRead) (ora : Nat → TaskOutcome)
    (cmds : List String) (hc : commandsOf pos file = some cmds)
    (hnp : ∀ j, j < cmds.length → ora j ≠ .sinkPanic) :
    mainRun pos file ora =
      { exitCode :=
          if (ordsWhere isSpawnErr 0 ((List.range cmds.length).map ora) ++
              ordsWhere isExitFailure 0 ((List.range cmds.length).map ora)).length > 0
          then 1 else 0,
        spawnAttempts := cmds.length,
        failed := ordsWhere isSpawnErr 0 ((List.range cmds.length).map ora) ++
          ordsWhere isExitFailure 0 ((List.range cmds.length).map ora),
        joinLogged := ordsWhere isJoinError 0 ((List.range cmds.length).map ora),
        fileErrorReported := false } := by
  have houts : ∀ o ∈ (List.range cmds.length).map ora, o ≠ TaskOutcome.sinkPanic := by
    intro o ho
    simp only [List.mem_map, List.mem_range] at ho
    obtain ⟨j, hj, rfl⟩ := ho
    exact hnp j hj
  by_cases hlen : cmds.length = 0
  · rw [List.length_eq_zero] at hlen
    subst hlen
    simp [mainRun, hc, ordsWhere]
  · obtain ⟨st', hok⟩ := scheduleLoop_no_panic _ houts 0 ⟨0, [], []⟩
    obtain ⟨h1, h2, h3⟩ := scheduleLoop_ok _ 0 _ _ hok
    simp only [mainRun, hc, if_neg hlen, hok, h1, h2, h3, List.nil_append]
    rw [awaitLoop_spawnedFrom]
    simp

/-- `digitCountAux` computes `Nat.log 10 n + 1` whenever the fuel is
sufficient. -/
theorem digitCountAux_eq (fuel : Nat) :
    ∀ n : Nat, n ≤ fuel → digitCountAux fuel n = Nat.log 10 n + 1 := by
  induction fuel with
  | zero =>
    intro n hn
    have hz : n = 0 := by omega
    subst hz
    simp [digitCountAux, Nat.log_zero_right]
  | succ f ih =>
    intro n hn
    by_cases h10 : n < 10
    · simp [digitCountAux, h10, Nat.log_of_lt h10]
    · have hpos : 0 < n := by omega
      have hdiv : n / 10 < n := Nat.div_lt_self hpos (by omega)
      have hle : n / 10 ≤ f := by omega
      simp only [digitCountAux, if_neg h10]
      rw [ih _ hle]
      have hlog : Nat.log 10 (n / 10) = Nat.log 10 n - 1 := Nat.log_div_base 10 n
      have hpos' : 0 < Nat.log 10 n := Nat.log_pos (by omega) (by omega)
      omega

/-- The width formula of src/main.rs:150 equals the decimal digit count of
the command count (not of the largest ordinal). -/
theorem width_eq_digitCount (n : Nat) : width n = digitCount n :=
  (digitCountAux_eq n n le_rfl).symm

/-!
Claim theorems.
-/

/-- C1: for every input command list (the command file was readable and
every sink file could be created, so the run completes normally), the
process exit code is 1 if and only if the final failed-ordinal set is
non-empty, and 0 otherwise; in particular an empty command list yields
exit code 0 (and an empty failed set). -/
theorem c1_exit_code_iff_failures (pos : List String) (file : FileRead)
    (ora : Nat → TaskOutcome) (cmds : List String)
    (hc : commandsOf pos file = some cmds)
    (hnp : ∀ j, j < cmds.length → ora j ≠ .sinkPanic) :
    ((mainRun pos file ora).exitCode = 1 ↔ (mainRun pos file ora).failed ≠ []) ∧
    (cmds = [] →
      (mainRun pos file ora).exitCode = 0 ∧ (mainRun pos file ora).failed = []) := by
  rw [mainRun_spec pos file ora cmds hc hnp]
  dsimp only
  refine ⟨?_, ?_⟩
  · generalize (ordsWhere isSpawnErr 0 ((List.range cmds.length).map ora) ++
        ordsWhere isExitFailure 0 ((List.range cmds.length).map ora)) = F
    cases F <;> simp
  · intro hcmds
    subst hcmds
    simp [ordsWhere]

/-- Witness for C1: a single command that exits successfully gives exit
code 0 and an empty failed set. -/
theorem c1_exit_code_iff_failures_witness :
    (((mainRun ["x"] .noFile fun _ => .spawned (.exited true)).exitCode = 1 ↔
        (mainRun ["x"] .noFile fun _ => .spawned (.exited true)).failed ≠ []) ∧
      (["x"] = [] →
        (mainRun ["x"] .noFile fun _ => .spawned (.exited true)).exitCode = 0 ∧
        (mainRun ["x"] .noFile fun _ => .spawned (.exited true)).failed = [])) :=
  c1_exit_code_iff_failures ["x"] .noFile (fun _ => .spawned (.exited true)) ["x"]
    rfl (fun j _ h => by simp at h)

/-- C2: in every reachable state of a run of `n` tasks against a gate of
`maxP` permits, at most `maxP` tasks hold a spawned-but-not-yet-exited
process: each task acquires a permit before its process is spawned and
releases it only after the wait resolves, so running tasks never exceed
the permit count. -/
theorem c2_concurrency_bound (maxP n : Nat) (s : SchedState)
    (h : Reachable maxP n s) : s.tasks.countP isRunning ≤ maxP := by
  have hinv := reachable_invariant maxP n s h
  have hmono : s.tasks.countP isRunning ≤ s.tasks.countP holdsPermit := by
    apply List.countP_mono_left
    intro a _ ha
    cases a <;> simp_all [isRunning, holdsPermit]
  omega

/-- Witness for C2: after one acquire and one spawn against a single
permit, the running count is within the bound. -/
theorem c2_concurrency_bound_witness :
    List.countP isRunning [TaskState.running, TaskState.queued] ≤ 1 :=
  c2_concurrency_bound 1 2 ⟨0, [TaskState.running, TaskState.queued]⟩
    (Reachable.step
      (Reachable.step Reachable.init
        (Step.acquire ⟨1, [TaskState.queued, TaskState.queued]⟩ 0 rfl (by decide)))
      (Step.spawnOk ⟨0, [TaskState.permitHeld, TaskState.queued]⟩ 0 rfl))

/-- C3 counterexample: with N = 10 tasks the code pads ordinals to width
2 (`floor (log10 10) + 1 = 2`), not to the decimal digit count of
N − 1 = 9 (which is 1) as claimed: task 7's stdout sink is named
`07.stdout`, not `7.stdout`. -/
theorem c3_counterexample :
    width 10 ≠ digitCount (10 - 1) ∧ width 10 = 2 ∧ digitCount (10 - 1) = 1 ∧
      sinkStdoutName 10 7 = "07.stdout" := by
  have h : width 10 = 2 := by rw [width_eq_digitCount]; rfl
  refine ⟨by rw [h]; decide, h, rfl, ?_⟩
  simp only [sinkStdoutName, taskName, h]
  decide

/-- C3 (amended): for every task count N with 1 ≤ N ≤ 10^6 — the range on
which the exact reading of the `f32` width formula is faithful (see
`width`; beyond it, e.g. at N = 9999999, the float rounding pads one
wider still) — the sink-filename width is the decimal digit count of N
itself, not of N − 1 as claimed, and is at least the claimed digit count
of N − 1, so zero-padded ordinals still sort in submission order. -/
theorem c3_width_amended (n : Nat) (h : 1 ≤ n) (hdom : n ≤ 1000000) :
    width n = digitCount n ∧ digitCount (n - 1) ≤ width n := by
  refine ⟨width_eq_digitCount n, ?_⟩
  have h1 : digitCount (n - 1) = Nat.log 10 (n - 1) + 1 :=
    digitCountAux_eq (n - 1) (n - 1) le_rfl
  have h2 : Nat.log 10 (n - 1) ≤ Nat.log 10 n := Nat.log_mono_right (by omega)
  simp only [width, h1]
  omega

/-- Witness for C3 (amended) at N = 10. -/
theorem c3_width_amended_witness :
    width 10 = digitCount 10 ∧ digitCount (10 - 1) ≤ width 10 :=
  c3_width_amended 10 (by omega) (by omega)

/-- C4 (code-bug evidence): when task 0's sink files cannot be created,
`File::create(..).unwrap()` (src/main.rs:98) panics and aborts the whole
process (Rust's panic exit code 101): the failure is not converted into a
task-level spawn error, nothing is recorded in the failed set, no report
is printed, and the second command is never attempted (only one
`spawn_task_process` call is made), contradicting the claim that the run
continues over the remaining tasks. -/
theorem c4_sink_panic_aborts :
    mainRun ["a", "b"] .noFile
        (fun i => if i = 0 then .sinkPanic else .spawned (.exited true)) =
      { exitCode := 101, spawnAttempts := 1, failed := [], joinLogged := [],
        fileErrorReported := false } := rfl

/-- C5 counterexample: a run of one task whose wait cannot be resolved
(join error): the event is logged (ordinal 0 is in the logged trace) but
the failed set stays empty and the exit code is 0 — the unresolvable wait
is silently omitted from the failure count, contrary to the claim that it
is counted as a failure. -/
theorem c5_counterexample :
    mainRun ["x"] .noFile (fun _ => .spawned .joinErr) =
      { exitCode := 0, spawnAttempts := 1, failed := [], joinLogged := [0],
        fileErrorReported := false } := rfl

/-- C5 (amended): for every task whose wait-for-exit operation cannot be
resolved, the event is logged, but the task is NOT counted in the
failed-ordinal set: the unresolvable wait is silently omitted from the
failure count. -/
theorem c5_join_error_logged_not_counted (pos : List String) (file : FileRead)
    (ora : Nat → TaskOutcome) (cmds : List String) (i : Nat)
    (hc : commandsOf pos file = some cmds)
    (hnp : ∀ j, j < cmds.length → ora j ≠ .sinkPanic)
    (hi : i < cmds.length) (hj : ora i = .spawned .joinErr) :
    i ∈ (mainRun pos file ora).joinLogged ∧ i ∉ (mainRun pos file ora).failed := by
  rw [mainRun_spec pos file ora cmds hc hnp]
  dsimp only
  have hget : ((List.range cmds.length).map ora)[i]? = some (ora i) := by
    simp [List.getElem?_map, List.getElem?_range, hi]
  constructor
  · exact (mem_ordsWhere _ _ 0 i).2 ⟨i, by omega, ora i, hget, by rw [hj]; rfl⟩
  · intro hmem
    rcases List.mem_append.1 hmem with hmem | hmem
    · obtain ⟨k, hk, o, hko, ho⟩ := (mem_ordsWhere _ _ 0 i).1 hmem
      have hki : k = i := by omega
      subst hki
      rw [hget] at hko
      rw [← Option.some.inj hko, hj] at ho
      simp [isSpawnErr] at ho
    · obtain ⟨k, hk, o, hko, ho⟩ := (mem_ordsWhere _ _ 0 i).1 hmem
      have hki : k = i := by omega
      subst hki
      rw [hget] at hko
      rw [← Option.some.inj hko, hj] at ho
      simp [isExitFailure] at ho

/-- Witness for C5 (amended): the join-errored task 0 is logged and not in
the failed set. -/
theorem c5_join_error_logged_not_counted_witness :
    0 ∈ (mainRun ["x"] .noFile fun _ => .spawned .joinErr).joinLogged ∧
      0 ∉ (mainRun ["x"] .noFile fun _ => .spawned .joinErr).failed :=
  c5_join_error_logged_not_counted ["x"] .noFile (fun _ => .spawned .joinErr)
    ["x"] 0 rfl (fun j _ h => by simp at h) (by decide) rfl

/-- C6: a task whose shell process cannot be launched is recorded in the
failed set while every command is still attempted (the run continues to
completion over the remaining tasks); and the gate accounting leaves no
orphaned permit: in any reachable gate state in which every task is
terminal (done or spawn-failed) the full permit count is available
again. -/
theorem c6_spawn_error_recovery :
    (∀ (pos : List String) (file : FileRead) (ora : Nat → TaskOutcome)
        (cmds : List String) (i : Nat),
        commandsOf pos file = some cmds →
        (∀ j, j < cmds.length → ora j ≠ .sinkPanic) →
        i < cmds.length → ora i = .spawnErr →
        i ∈ (mainRun pos file ora).failed ∧
          (mainRun pos file ora).spawnAttempts = cmds.length) ∧
    (∀ (maxP n : Nat) (s : SchedState), Reachable maxP n s →
        (∀ t ∈ s.tasks, t = .done ∨ t = .spawnFailed) → s.permits = maxP) := by
  constructor
  · intro pos file ora cmds i hc hnp hi hsp
    rw [mainRun_spec pos file ora cmds hc hnp]
    dsimp only
    refine ⟨?_, rfl⟩
    apply List.mem_append_left
    have hget : ((List.range cmds.length).map ora)[i]? = some (ora i) := by
      simp [List.getElem?_map, List.getElem?_range, hi]
    exact (mem_ordsWhere _ _ 0 i).2 ⟨i, by omega, ora i, hget, by rw [hsp]; rfl⟩
  · intro maxP n s hr hterm
    have hinv := reachable_invariant maxP n s hr
    have hzero : s.tasks.countP holdsPermit = 0 := by
      rw [List.countP_eq_zero]
      intro a ha
      rcases hterm a ha with rfl | rfl <;> simp [holdsPermit]
    omega

/-- Witness for C6: a single spawn-failing command lands in the failed
set with the whole list attempted, and the gate of a finished one-task run
shows all three permits available again. -/
theorem c6_spawn_error_recovery_witness :
    (0 ∈ (mainRun ["x"] .noFile fun _ => .spawnErr).failed ∧
      (mainRun ["x"] .noFile fun _ => .spawnErr).spawnAttempts = 1) ∧
    (⟨3, [TaskState.spawnFailed]⟩ : SchedState).permits = 3 :=
  ⟨c6_spawn_error_recovery.1 ["x"] .noFile (fun _ => .spawnErr) ["x"] 0 rfl
      (fun j _ h => by simp at h) (by decide) rfl,
    c6_spawn_error_recovery.2 3 1 ⟨3, [TaskState.spawnFailed]⟩
      (Reachable.step
        (Reachable.step Reachable.init
          (Step.acquire ⟨3, [TaskState.queued]⟩ 0 rfl (by decide)))
        (Step.spawnFail ⟨2, [TaskState.permitHeld]⟩ 0 rfl))
      (fun t ht => Or.inr (List.mem_singleton.1 ht))⟩

/-- C7 counterexample: with command 0 exiting unsuccessfully and command 1
failing to spawn, the reported vector is `[1, 0]` — the spawn failure is
pushed during the scheduling loop, before the awaited exit failure — which
is not in ascending ordinal order, contrary to the claim. -/
theorem c7_counterexample :
    (mainRun ["a", "b"] .noFile
        (fun i => if i = 0 then .spawned (.exited false) else .spawnErr)).failed
      = [1, 0] ∧
    ¬ List.Sorted (· ≤ ·) [1, 0] := by
  refine ⟨rfl, fun hs => ?_⟩
  exact absurd (List.rel_of_sorted_cons hs 0 (by simp)) (by omega)

/-- C7 (amended): the final report lists the spawn-failure ordinals in
ascending order followed by the non-success-exit ordinals in ascending
order (each group sorted, independent of completion order); the
concatenation is not globally ascending when a spawn failure has a higher
ordinal than some exit failure. -/
theorem c7_report_order (pos : List String) (file : FileRead)
    (ora : Nat → TaskOutcome) (cmds : List String)
    (hc : commandsOf pos file = some cmds)
    (hnp : ∀ j, j < cmds.length → ora j ≠ .sinkPanic) :
    (mainRun pos file ora).failed =
      ordsWhere isSpawnErr 0 ((List.range cmds.length).map ora) ++
        ordsWhere isExitFailure 0 ((List.range cmds.length).map ora) ∧
    List.Sorted (· < ·) (ordsWhere isSpawnErr 0 ((List.range cmds.length).map ora)) ∧
    List.Sorted (· < ·) (ordsWhere isExitFailure 0 ((List.range cmds.length).map ora)) := by
  refine ⟨?_, ordsWhere_sorted _ _ 0, ordsWhere_sorted _ _ 0⟩
  rw [mainRun_spec pos file ora cmds hc hnp]

/-- Witness for C7 (amended) on the counterexample run: the report is the
spawn-failure group `[1]` followed by the exit-failure group `[0]`. -/
theorem c7_report_order_witness :
    (mainRun ["a", "b"] .noFile
        (fun i => if i = 0 then .spawned (.exited false) else .spawnErr)).failed =
      ordsWhere isSpawnErr 0 ((List.range (["a", "b"] : List String).length).map
        (fun i => if i = 0 then .spawned (.exited false) else .spawnErr)) ++
      ordsWhere isExitFailure 0 ((List.range (["a", "b"] : List String).length).map
        (fun i => if i = 0 then .spawned (.exited false) else .spawnErr)) ∧
    List.Sorted (· < ·) (ordsWhere isSpawnErr 0
      ((List.range (["a", "b"] : List String).length).map
        (fun i => if i = 0 then .spawned (.exited false) else .spawnErr))) ∧
    List.Sorted (· < ·) (ordsWhere isExitFailure 0
      ((List.range (["a", "b"] : List String).length).map
        (fun i => if i = 0 then .spawned (.exited false) else .spawnErr))) :=
  c7_report_order ["a", "b"] .noFile
    (fun i => if i = 0 then .spawned (.exited false) else .spawnErr) ["a", "b"]
    rfl (fun j _ h => by by_cases hj0 : j = 0 <;> simp [hj0] at h)

/-- C8: in every run (any command sources, any environment, panics and
read errors included), no ordinal appears twice in the failed-ordinal
vector: each group of failures is strictly increasing, and a task either
fails to spawn (recorded once, never awaited) or is awaited exactly
once. -/
theorem c8_failed_nodup (pos : List String) (file : FileRead)
    (ora : Nat → TaskOutcome) : (mainRun pos file ora).failed.Nodup := by
  rcases hcf : commandsOf pos file with - | cmds
  · simp [mainRun, hcf]
  · by_cases hlen : cmds.length = 0
    · simp [mainRun, hcf, hlen]
    · cases hok : scheduleLoop 0 ⟨0, [], []⟩ ((List.range cmds.length).map ora) with
      | error st => simp [mainRun, hcf, hlen, hok]
      | ok st =>
        obtain ⟨h1, h2, h3⟩ := scheduleLoop_ok _ 0 _ _ hok
        have hfail : (mainRun pos file ora).failed =
            ordsWhere isSpawnErr 0 ((List.range cmds.length).map ora) ++
            ordsWhere isExitFailure 0 ((List.range cmds.length).map ora) := by
          simp only [mainRun, hcf, if_neg hlen, hok, h2, h3, List.nil_append]
          rw [awaitLoop_spawnedFrom]
        rw [hfail]
        apply List.Nodup.append
        · exact (ordsWhere_sorted _ _ 0).imp fun hlt => Nat.ne_of_lt hlt
        · exact (ordsWhere_sorted _ _ 0).imp fun hlt => Nat.ne_of_lt hlt
        · intro a ha hb
          obtain ⟨k, hk, o, hko, ho⟩ := (mem_ordsWhere _ _ 0 a).1 ha
          obtain ⟨m, hm, o', hmo, ho'⟩ := (mem_ordsWhere _ _ 0 a).1 hb
          have hkm : k = m := by omega
          subst hkm
          rw [hko] at hmo
          have hoe : o = o' := Option.some.inj hmo
          subst hoe
          cases o with
          | sinkPanic => simp [isSpawnErr] at ho
          | spawnErr => simp [isExitFailure] at ho'
          | spawned j => simp [isSpawnErr] at ho

/-- C9: when positional commands and a command file are both supplied, the
file's lines are appended after the positional commands: the command list
is exactly `positional ++ rustLines content` (blank lines included, as
empty commands), the positional commands occupy the low ordinals, and
file line `j` becomes the task with ordinal `positional.length + j`. -/
theorem c9_file_lines_appended (pos : List String) (content : String)
    (cmds : List String) (hc : commandsOf pos (.content content) = some cmds) :
    cmds = pos ++ rustLines content ∧
    (∀ i, i < pos.length → cmds[i]? = pos[i]?) ∧
    (∀ j, j < (rustLines content).length →
      cmds[pos.length + j]? = (rustLines content)[j]?) ∧
    cmds.length = pos.length + (rustLines content).length := by
  have hcmds : cmds = pos ++ rustLines content := by
    simpa [commandsOf] using hc.symm
  subst hcmds
  refine ⟨rfl, ?_, ?_, by simp⟩
  · intro i hi
    exact List.getElem?_append_left hi
  · intro j _
    rw [List.getElem?_append_right (by omega)]
    simp

/-- Witness for C9: one positional command and a file with a blank line in
the middle: the blank line becomes the empty command at ordinal 2. -/
theorem c9_file_lines_appended_witness :
    (["p", "a", "", "b"] : List String) = ["p"] ++ rustLines "a\n\nb" ∧
    (∀ i, i < (["p"] : List String).length →
      (["p", "a", "", "b"] : List String)[i]? = (["p"] : List String)[i]?) ∧
    (∀ j, j < (rustLines "a\n\nb").length →
      (["p", "a", "", "b"] : List String)[(["p"] : List String).length + j]? =
        (rustLines "a\n\nb")[j]?) ∧
    (["p", "a", "", "b"] : List String).length =
      (["p"] : List String).length + (rustLines "a\n\nb").length :=
  c9_file_lines_appended ["p"] "a\n\nb" ["p", "a", "", "b"] (by decide)

/-- C10: if the command file cannot be read, the run reports the error
(naming the file, src/main.rs:128) and exits with code 1 with no spawn
attempt made: no task is created, no sink file is written, no process is
spawned and no failure set is produced — for every positional list and
environment. -/
theorem c10_file_read_error (pos : List String) (ora : Nat → TaskOutcome) :
    mainRun pos .readError ora =
      { exitCode := 1, spawnAttempts := 0, failed := [], joinLogged := [],
        fileErrorReported := true } := rfl

end Ptsd
